import Mathlib

/-
Verification of the supply/demand-zone pattern detector and retest scanner
(patterns_logic.py of goyalanu6/stocks-patterns).

Prices are modelled as rationals; a candle sequence is a list in chronological
order, the candle's position in the list being its trading-day index.  The
functions below are direct translations of the Python source:
  candle_size, candle_body, wick_sum, is_bullish, is_bearish,
  find_pattern (four variants: "bullish" = RBR, "bearish" = DBD, "rbd", "dbr"),
  find_retests_rbr / find_retests_dbd / find_retests_rbd / find_retests_dbr,
  analyze_security_patterns.
The fetch collaborator (rbr_logic.fetch_for) raises on network/API errors; it
is modelled as an `Except String (List Candle)` input to the orchestrator.
-/

structure Candle where
  open_ : ℚ
  high : ℚ
  low : ℚ
  close : ℚ
  date : ℕ
deriving DecidableEq

def dummy_candle : Candle := ⟨0, 0, 0, 0, 0⟩

/-- Candle at trading-day index i (all source accesses are bounds-guarded). -/
def nth (df : List Candle) (i : ℕ) : Candle := df.getD i dummy_candle

/-- max(c.high - c.low, 1e-9): the epsilon-guarded candle range. -/
def candle_size (c : Candle) : ℚ := max (c.high - c.low) (1 / 1000000000)

def candle_body (c : Candle) : ℚ := |c.close - c.open_|

def wick_sum (c : Candle) : ℚ :=
  (c.high - max c.open_ c.close) + (min c.open_ c.close - c.low)

def is_bullish (c : Candle) : Prop := c.close > c.open_

def is_bearish (c : Candle) : Prop := c.open_ > c.close

instance (c : Candle) : Decidable (is_bullish c) := by unfold is_bullish; infer_instance

instance (c : Candle) : Decidable (is_bearish c) := by unfold is_bearish; infer_instance

/-- Pass-condition of the source's first/second-impulse test for a rally
candle: the source skips when
not is_bullish(c) or body/size < body_threshold or wick/size > wick_threshold,
so it proceeds exactly when the conjunction below holds. -/
def impulse_bull (bt wt : ℚ) (c : Candle) : Prop :=
  is_bullish c ∧ bt ≤ candle_body c / candle_size c ∧ wick_sum c / candle_size c ≤ wt

/-- Pass-condition of the impulse test for a drop candle. -/
def impulse_bear (bt wt : ℚ) (c : Candle) : Prop :=
  is_bearish c ∧ bt ≤ candle_body c / candle_size c ∧ wick_sum c / candle_size c ≤ wt

/-- Base-candle test of the source: (b / s) <= wick_threshold and
(w / s) >= body_threshold. -/
def is_base (bt wt : ℚ) (c : Candle) : Prop :=
  candle_body c / candle_size c ≤ wt ∧ bt ≤ wick_sum c / candle_size c

instance (bt wt : ℚ) (c : Candle) : Decidable (impulse_bull bt wt c) := by
  unfold impulse_bull; infer_instance

instance (bt wt : ℚ) (c : Candle) : Decidable (impulse_bear bt wt c) := by
  unfold impulse_bear; infer_instance

instance (bt wt : ℚ) (c : Candle) : Decidable (is_base bt wt c) := by
  unfold is_base; infer_instance

structure Zone where
  pattern_type : String
  date_base : ℕ
  zone_low : ℚ
  zone_high : ℚ
  zone_height : ℚ
  num_base_candles : ℕ
  continuation_idx : ℕ
deriving DecidableEq

/-- Python max() over a nonempty list of rationals (0 on the empty list,
which the source never queries). -/
def maxQ : List ℚ → ℚ
  | [] => 0
  | a :: l => l.foldl max a

/-- Python min() over a nonempty list of rationals. -/
def minQ : List ℚ → ℚ
  | [] => 0
  | a :: l => l.foldl min a

/-- max(b.open, b.close): the body top used for demand-zone highs. -/
def body_high (c : Candle) : ℚ := max c.open_ c.close

/-- min(b.open, b.close): the body bottom used for supply-zone lows. -/
def body_low (c : Candle) : ℚ := min c.open_ c.close

/-- The base-candle collection loop: starting at index j with a budget of m
remaining base slots, advance while the candle is a base, the index is in
range and the budget is not exhausted; returns the index just after the last
collected base (the source's final j). -/
def collect_bases (df : List Candle) (bt wt : ℚ) : ℕ → ℕ → ℕ
  | 0, j => j
  | m + 1, j =>
    if j < df.length ∧ is_base bt wt (nth df j) then
      collect_bases df bt wt m (j + 1)
    else j

/-- The collected base candles: indices i+1 .. j-1 of df. -/
def bases_list (df : List Candle) (i j : ℕ) : List Candle :=
  (df.drop (i + 1)).take (j - (i + 1))

/-- One attempt of the RBR branch at first-impulse index i.  The source's
sequence of early-exit checks over pure conditions is collapsed into a single
conjunction, in the source's order: first impulse bullish, at least one base
collected (j > i+1), second-impulse index in range, second impulse bullish. -/
def try_rbr (df : List Candle) (max_bases : ℕ) (bt wt : ℚ) (i : ℕ) : Option Zone :=
  let c1 := nth df i
  let j := collect_bases df bt wt max_bases (i + 1)
  let bs := bases_list df i j
  if impulse_bull bt wt c1 ∧ i + 1 < j ∧ j < df.length ∧ impulse_bull bt wt (nth df j) then
    some { pattern_type := "RBR",
           date_base := (nth df (i + 1)).date,
           zone_low := minQ (bs.map Candle.low),
           zone_high := maxQ (bs.map body_high),
           zone_height := |maxQ (bs.map body_high) - minQ (bs.map Candle.low)|,
           num_base_candles := j - (i + 1),
           continuation_idx := j }
  else none

/-- One attempt of the DBD branch at first-impulse index i. -/
def try_dbd (df : List Candle) (max_bases : ℕ) (bt wt : ℚ) (i : ℕ) : Option Zone :=
  let c1 := nth df i
  let j := collect_bases df bt wt max_bases (i + 1)
  let bs := bases_list df i j
  if impulse_bear bt wt c1 ∧ i + 1 < j ∧ j < df.length ∧ impulse_bear bt wt (nth df j) then
    some { pattern_type := "DBD",
           date_base := (nth df (i + 1)).date,
           zone_low := minQ (bs.map body_low),
           zone_high := maxQ (bs.map Candle.high),
           zone_height := |maxQ (bs.map Candle.high) - minQ (bs.map body_low)|,
           num_base_candles := j - (i + 1),
           continuation_idx := j }
  else none

/-- One attempt of the RBD branch: bullish first impulse, bearish second
impulse, and additionally the source skips when
float(c2.close) >= float(c1.low), so it emits only when c2.close < c1.low. -/
def try_rbd (df : List Candle) (max_bases : ℕ) (bt wt : ℚ) (i : ℕ) : Option Zone :=
  let c1 := nth df i
  let j := collect_bases df bt wt max_bases (i + 1)
  let bs := bases_list df i j
  if impulse_bull bt wt c1 ∧ i + 1 < j ∧ j < df.length ∧ impulse_bear bt wt (nth df j) ∧
      (nth df j).close < c1.low then
    some { pattern_type := "RBD",
           date_base := (nth df (i + 1)).date,
           zone_low := minQ (bs.map body_low),
           zone_high := maxQ (bs.map Candle.high),
           zone_height := |maxQ (bs.map Candle.high) - minQ (bs.map body_low)|,
           num_base_candles := j - (i + 1),
           continuation_idx := j }
  else none

/-- One attempt of the DBR branch: bearish first impulse, bullish second
impulse, and additionally the source skips when
float(c2.close) <= float(c1.high), so it emits only when c2.close > c1.high. -/
def try_dbr (df : List Candle) (max_bases : ℕ) (bt wt : ℚ) (i : ℕ) : Option Zone :=
  let c1 := nth df i
  let j := collect_bases df bt wt max_bases (i + 1)
  let bs := bases_list df i j
  if impulse_bear bt wt c1 ∧ i + 1 < j ∧ j < df.length ∧ impulse_bull bt wt (nth df j) ∧
      c1.high < (nth df j).close then
    some { pattern_type := "DBR",
           date_base := (nth df (i + 1)).date,
           zone_low := minQ (bs.map Candle.low),
           zone_high := maxQ (bs.map body_high),
           zone_height := |maxQ (bs.map body_high) - minQ (bs.map Candle.low)|,
           num_base_candles := j - (i + 1),
           continuation_idx := j }
  else none

/-- One loop-body attempt at index i.  The source guards the first branch with
direction in ("bullish", "bearish") and switches on direction == "bullish"
inside it; that is equivalent to the four-way dispatch below.  Any other
direction string falls through to the final i += 1 (here: none). -/
def try_zone (df : List Candle) (direction : String) (max_bases : ℕ) (bt wt : ℚ)
    (i : ℕ) : Option Zone :=
  if direction = "bullish" then try_rbr df max_bases bt wt i
  else if direction = "bearish" then try_dbd df max_bases bt wt i
  else if direction = "rbd" then try_rbd df max_bases bt wt i
  else if direction = "dbr" then try_dbr df max_bases bt wt i
  else none

/-- The detection sweep: while i < n - 2 the loop body either emits a zone and
resumes at continuation_idx + 1 or advances by one.  The recursion carries an
iteration budget: since every iteration advances the index by at least one
(theorem try_zone_bounds below), a budget of df.length iterations never runs
out before the loop condition i < n - 2 fails (theorem
find_pattern_aux_fuel_stable below), so the budgeted recursion is exactly the
source's while loop. -/
def find_pattern_aux (df : List Candle) (direction : String) (max_bases : ℕ)
    (bt wt : ℚ) : ℕ → ℕ → List Zone
  | 0, _ => []
  | fuel + 1, i =>
    if i + 2 < df.length then
      match try_zone df direction max_bases bt wt i with
      | some z => z :: find_pattern_aux df direction max_bases bt wt fuel (z.continuation_idx + 1)
      | none => find_pattern_aux df direction max_bases bt wt fuel (i + 1)
    else []

/-- Translation of find_pattern (patterns_logic.py): detect RBR ("bullish"),
DBD ("bearish"), RBD ("rbd") or DBR ("dbr") zones in a single left-to-right
sweep starting at index 0. -/
def find_pattern (df : List Candle) (direction : String) (max_bases : ℕ)
    (bt wt : ℚ) : List Zone :=
  find_pattern_aux df direction max_bases bt wt df.length 0

/-- Mutable state of one retest scan: signal flag, recorded price and date,
invalidation flag. -/
structure RState where
  signal : Bool
  price : Option ℚ
  date : Option ℕ
  invalid : Bool
deriving DecidableEq

/-- Initial scan state: signal = invalid = False, price = date = None. -/
def rstart : RState := ⟨false, none, none, false⟩

/-- The per-zone scan loop of find_retests_rbr / find_retests_dbr over the
candles after continuation_idx: the first in-zone low records the signal
(only when none is recorded yet), and any low below zone_low sets invalidated
and breaks. -/
def scan_low (low high : ℚ) : List Candle → RState → RState
  | [], st => st
  | c :: rest, st =>
    let st1 := if st.signal = false ∧ low ≤ c.low ∧ c.low ≤ high then
        { st with signal := true, price := some c.low, date := some c.date }
      else st
    if c.low < low then { st1 with invalid := true }
    else scan_low low high rest st1

/-- The per-zone scan loop of find_retests_dbd / find_retests_rbd: the first
in-zone high records the signal, and any high above zone_high sets
invalidated and breaks. -/
def scan_high (low high : ℚ) : List Candle → RState → RState
  | [], st => st
  | c :: rest, st =>
    let st1 := if st.signal = false ∧ low ≤ c.high ∧ c.high ≤ high then
        { st with signal := true, price := some c.high, date := some c.date }
      else st
    if high < c.high then { st1 with invalid := true }
    else scan_high low high rest st1

/-- A zone record extended with the retest columns the scanners append
(buy_signal / buy_price or sell_signal / sell_price, retest_date,
invalidated). -/
structure Retest where
  zone : Zone
  signal : Bool
  price : Option ℚ
  retest_date : Option ℕ
  invalidated : Bool
deriving DecidableEq

/-- find_retests_rbr: scan each zone's low-touches over df after
continuation_idx. -/
def find_retests_rbr (df : List Candle) (zones : List Zone) : List Retest :=
  zones.map fun z =>
    let st := scan_low z.zone_low z.zone_high (df.drop (z.continuation_idx + 1)) rstart
    ⟨z, st.signal, st.price, st.date, st.invalid⟩

/-- find_retests_dbd: scan each zone's high-touches over df after
continuation_idx. -/
def find_retests_dbd (df : List Candle) (zones : List Zone) : List Retest :=
  zones.map fun z =>
    let st := scan_high z.zone_low z.zone_high (df.drop (z.continuation_idx + 1)) rstart
    ⟨z, st.signal, st.price, st.date, st.invalid⟩

/-- find_retests_rbd: identical scan to find_retests_dbd (high-touches). -/
def find_retests_rbd (df : List Candle) (zones : List Zone) : List Retest :=
  zones.map fun z =>
    let st := scan_high z.zone_low z.zone_high (df.drop (z.continuation_idx + 1)) rstart
    ⟨z, st.signal, st.price, st.date, st.invalid⟩

/-- find_retests_dbr: identical scan to find_retests_rbr (low-touches). -/
def find_retests_dbr (df : List Candle) (zones : List Zone) : List Retest :=
  zones.map fun z =>
    let st := scan_low z.zone_low z.zone_high (df.drop (z.continuation_idx + 1)) rstart
    ⟨z, st.signal, st.price, st.date, st.invalid⟩

/-- Modelled from the claim's words, for comparison with scan_low: the first
candle whose low lies within [zone_low, zone_high], among the candles up to
(and excluding) the first breaching candle (low < zone_low). -/
def spec_first_touch_low (low high : ℚ) (l : List Candle) : Option Candle :=
  (l.takeWhile fun c => decide (low ≤ c.low)).find? fun c => decide (c.low ≤ high)

/-- Modelled from the claim's words, for comparison with scan_high: the first
candle whose high lies within [zone_low, zone_high], among the candles up to
(and excluding) the first breaching candle (high > zone_high). -/
def spec_first_touch_high (low high : ℚ) (l : List Candle) : Option Candle :=
  (l.takeWhile fun c => decide (c.high ≤ high)).find? fun c => decide (low ≤ c.high)

/-- Translation of analyze_security_patterns.  The fetch collaborator
(fetch_for) raises RuntimeError on network or non-2xx failures; its outcome is
passed in as an Except value.  The source wraps the whole body in
try/except Exception, printing and returning (None, empty DataFrame) on any
exception; since the detector and scanners are total, the only failure the
handler can see is the fetch failure, modelled by the .error branch. -/
def analyze_security_patterns (fetched : Except String (List Candle))
    (direction : String) (bt wt : ℚ) (max_bases : ℕ) :
    Option (List Candle) × List Retest :=
  match fetched with
  | .error _ => (none, [])
  | .ok df =>
    if df = [] then (none, [])
    else
      let zones := find_pattern df direction max_bases bt wt
      if zones = [] then (some df, [])
      else
        (some df,
          if direction = "bullish" then find_retests_rbr df zones
          else if direction = "bearish" then find_retests_dbd df zones
          else if direction = "rbd" then find_retests_rbd df zones
          else if direction = "dbr" then find_retests_dbr df zones
          else [])

/-- Well-formed OHLC data: high ≥ max(open, close) and min(open, close) ≥ low
for every candle of the series. -/
def wellformed (df : List Candle) : Prop :=
  ∀ c ∈ df, c.low ≤ min c.open_ c.close ∧ max c.open_ c.close ≤ c.high

/-- The spec's RBR scenario: C0 neutral, C1 bullish impulse, C2 base,
C3 bullish impulse; dates are the indices. -/
def scenario_df : List Candle :=
  [⟨100, 100, 100, 100, 0⟩, ⟨100, 111, 99, 110, 1⟩,
   ⟨109, 110, 107, 108, 2⟩, ⟨108, 119, 107, 118, 3⟩]

/-- A series with a bullish impulse, five consecutive base candles and a
closing bullish impulse, used to exercise out-of-range max_bases values. -/
def five_base_df : List Candle :=
  [⟨100, 111, 99, 110, 0⟩, ⟨109, 110, 107, 108, 1⟩, ⟨109, 110, 107, 108, 2⟩,
   ⟨109, 110, 107, 108, 3⟩, ⟨109, 110, 107, 108, 4⟩, ⟨109, 110, 107, 108, 5⟩,
   ⟨108, 119, 107, 118, 6⟩]

/-- A Rally-Base-Drop series: bullish impulse, one base, then a bearish
impulse closing below the rally's low (96 < 99). -/
def rbd_df : List Candle :=
  [⟨100, 111, 99, 110, 0⟩, ⟨109, 110, 107, 108, 1⟩, ⟨108, 109, 95, 96, 2⟩]

theorem find_pattern_aux_zero (df : List Candle) (d : String) (mb : ℕ) (bt wt : ℚ)
    (i : ℕ) : find_pattern_aux df d mb bt wt 0 i = [] := rfl

theorem find_pattern_aux_succ (df : List Candle) (d : String) (mb : ℕ) (bt wt : ℚ)
    (fuel i : ℕ) :
    find_pattern_aux df d mb bt wt (fuel + 1) i =
      if i + 2 < df.length then
        match try_zone df d mb bt wt i with
        | some z => z :: find_pattern_aux df d mb bt wt fuel (z.continuation_idx + 1)
        | none => find_pattern_aux df d mb bt wt fuel (i + 1)
      else [] := rfl

theorem collect_bases_le (df : List Candle) (bt wt : ℚ) :
    ∀ m j, j ≤ collect_bases df bt wt m j ∧ collect_bases df bt wt m j ≤ j + m := by
  intro m
  induction m with
  | zero => intro j; simp [collect_bases]
  | succ m ih =>
    intro j
    rw [collect_bases]
    split
    · have h := ih (j + 1)
      omega
    · omega

theorem collect_bases_is_base (df : List Candle) (bt wt : ℚ) :
    ∀ m j k, j ≤ k → k < collect_bases df bt wt m j →
      k < df.length ∧ is_base bt wt (nth df k) := by
  intro m
  induction m with
  | zero => intro j k _ hk; simp [collect_bases] at hk; omega
  | succ m ih =>
    intro j k hjk hk
    rw [collect_bases] at hk
    by_cases hc : j < df.length ∧ is_base bt wt (nth df j)
    · rw [if_pos hc] at hk
      rcases Nat.eq_or_lt_of_le hjk with h | h
      · subst h; exact hc
      · exact ih (j + 1) k h hk
    · rw [if_neg hc] at hk; omega

theorem try_rbr_inv {df : List Candle} {mb : ℕ} {bt wt : ℚ} {i : ℕ} {z : Zone}
    (h : try_rbr df mb bt wt i = some z) :
    ∃ j, collect_bases df bt wt mb (i + 1) = j ∧
      impulse_bull bt wt (nth df i) ∧ i + 1 < j ∧ j < df.length ∧
      impulse_bull bt wt (nth df j) ∧
      z = { pattern_type := "RBR",
            date_base := (nth df (i + 1)).date,
            zone_low := minQ ((bases_list df i j).map Candle.low),
            zone_high := maxQ ((bases_list df i j).map body_high),
            zone_height := |maxQ ((bases_list df i j).map body_high) -
              minQ ((bases_list df i j).map Candle.low)|,
            num_base_candles := j - (i + 1),
            continuation_idx := j } := by
  simp only [try_rbr] at h
  split at h
  · rename_i hg
    exact ⟨collect_bases df bt wt mb (i + 1), rfl, hg.1, hg.2.1, hg.2.2.1, hg.2.2.2,
      (Option.some.inj h).symm⟩
  · exact Option.noConfusion h

theorem try_dbd_inv {df : List Candle} {mb : ℕ} {bt wt : ℚ} {i : ℕ} {z : Zone}
    (h : try_dbd df mb bt wt i = some z) :
    ∃ j, collect_bases df bt wt mb (i + 1) = j ∧
      impulse_bear bt wt (nth df i) ∧ i + 1 < j ∧ j < df.length ∧
      impulse_bear bt wt (nth df j) ∧
      z = { pattern_type := "DBD",
            date_base := (nth df (i + 1)).date,
            zone_low := minQ ((bases_list df i j).map body_low),
            zone_high := maxQ ((bases_list df i j).map Candle.high),
            zone_height := |maxQ ((bases_list df i j).map Candle.high) -
              minQ ((bases_list df i j).map body_low)|,
            num_base_candles := j - (i + 1),
            continuation_idx := j } := by
  simp only [try_dbd] at h
  split at h
  · rename_i hg
    exact ⟨collect_bases df bt wt mb (i + 1), rfl, hg.1, hg.2.1, hg.2.2.1, hg.2.2.2,
      (Option.some.inj h).symm⟩
  · exact Option.noConfusion h

theorem try_rbd_inv {df : List Candle} {mb : ℕ} {bt wt : ℚ} {i : ℕ} {z : Zone}
    (h : try_rbd df mb bt wt i = some z) :
    ∃ j, collect_bases df bt wt mb (i + 1) = j ∧
      impulse_bull bt wt (nth df i) ∧ i + 1 < j ∧ j < df.length ∧
      impulse_bear bt wt (nth df j) ∧ (nth df j).close < (nth df i).low ∧
      z = { pattern_type := "RBD",
            date_base := (nth df (i + 1)).date,
            zone_low := minQ ((bases_list df i j).map body_low),
            zone_high := maxQ ((bases_list df i j).map Candle.high),
            zone_height := |maxQ ((bases_list df i j).map Candle.high) -
              minQ ((bases_list df i j).map body_low)|,
            num_base_candles := j - (i + 1),
            continuation_idx := j } := by
  simp only [try_rbd] at h
  split at h
  · rename_i hg
    exact ⟨collect_bases df bt wt mb (i + 1), rfl, hg.1, hg.2.1, hg.2.2.1, hg.2.2.2.1,
      hg.2.2.2.2, (Option.some.inj h).symm⟩
  · exact Option.noConfusion h

theorem try_dbr_inv {df : List Candle} {mb : ℕ} {bt wt : ℚ} {i : ℕ} {z : Zone}
    (h : try_dbr df mb bt wt i = some z) :
    ∃ j, collect_bases df bt wt mb (i + 1) = j ∧
      impulse_bear bt wt (nth df i) ∧ i + 1 < j ∧ j < df.length ∧
      impulse_bull bt wt (nth df j) ∧ (nth df i).high < (nth df j).close ∧
      z = { pattern_type := "DBR",
            date_base := (nth df (i + 1)).date,
            zone_low := minQ ((bases_list df i j).map Candle.low),
            zone_high := maxQ ((bases_list df i j).map body_high),
            zone_height := |maxQ ((bases_list df i j).map body_high) -
              minQ ((bases_list df i j).map Candle.low)|,
            num_base_candles := j - (i + 1),
            continuation_idx := j } := by
  simp only [try_dbr] at h
  split at h
  · rename_i hg
    exact ⟨collect_bases df bt wt mb (i + 1), rfl, hg.1, hg.2.1, hg.2.2.1, hg.2.2.2.1,
      hg.2.2.2.2, (Option.some.inj h).symm⟩
  · exact Option.noConfusion h

theorem try_zone_bullish (df : List Candle) (mb : ℕ) (bt wt : ℚ) (i : ℕ) :
    try_zone df "bullish" mb bt wt i = try_rbr df mb bt wt i := rfl

theorem try_zone_bearish (df : List Candle) (mb : ℕ) (bt wt : ℚ) (i : ℕ) :
    try_zone df "bearish" mb bt wt i = try_dbd df mb bt wt i := rfl

theorem try_zone_rbd (df : List Candle) (mb : ℕ) (bt wt : ℚ) (i : ℕ) :
    try_zone df "rbd" mb bt wt i = try_rbd df mb bt wt i := rfl

theorem try_zone_dbr (df : List Candle) (mb : ℕ) (bt wt : ℚ) (i : ℕ) :
    try_zone df "dbr" mb bt wt i = try_dbr df mb bt wt i := rfl

theorem try_zone_unknown {d : String} (df : List Candle) (mb : ℕ) (bt wt : ℚ) (i : ℕ)
    (h1 : d ≠ "bullish") (h2 : d ≠ "bearish") (h3 : d ≠ "rbd") (h4 : d ≠ "dbr") :
    try_zone df d mb bt wt i = none := by
  simp [try_zone, h1, h2, h3, h4]

theorem try_zone_bounds {df : List Candle} {d : String} {mb : ℕ} {bt wt : ℚ}
    {i : ℕ} {z : Zone} (h : try_zone df d mb bt wt i = some z) :
    i + 2 ≤ z.continuation_idx ∧ z.continuation_idx < df.length := by
  unfold try_zone at h
  split at h
  · obtain ⟨j, -, -, h2, h3, -, hzeq⟩ := try_rbr_inv h
    have hc : z.continuation_idx = j := by rw [hzeq]
    omega
  · split at h
    · obtain ⟨j, -, -, h2, h3, -, hzeq⟩ := try_dbd_inv h
      have hc : z.continuation_idx = j := by rw [hzeq]
      omega
    · split at h
      · obtain ⟨j, -, -, h2, h3, -, -, hzeq⟩ := try_rbd_inv h
        have hc : z.continuation_idx = j := by rw [hzeq]
        omega
      · split at h
        · obtain ⟨j, -, -, h2, h3, -, -, hzeq⟩ := try_dbr_inv h
          have hc : z.continuation_idx = j := by rw [hzeq]
          omega
        · exact Option.noConfusion h

theorem find_pattern_aux_fuel_stable (df : List Candle) (d : String) (mb : ℕ)
    (bt wt : ℚ) :
    ∀ f1 f2 i, df.length ≤ i + f1 → df.length ≤ i + f2 →
      find_pattern_aux df d mb bt wt f1 i = find_pattern_aux df d mb bt wt f2 i := by
  intro f1
  induction f1 with
  | zero =>
    intro f2 i h1 h2
    cases f2 with
    | zero => rfl
    | succ b =>
      rw [find_pattern_aux_zero, find_pattern_aux_succ, if_neg (by omega)]
  | succ a ih =>
    intro f2 i h1 h2
    cases f2 with
    | zero =>
      rw [find_pattern_aux_zero, find_pattern_aux_succ, if_neg (by omega)]
    | succ b =>
      rw [find_pattern_aux_succ, find_pattern_aux_succ]
      by_cases hc : i + 2 < df.length
      · rw [if_pos hc, if_pos hc]
        cases htz : try_zone df d mb bt wt i with
        | some z =>
          have hb := try_zone_bounds htz
          show z :: find_pattern_aux df d mb bt wt a (z.continuation_idx + 1)
             = z :: find_pattern_aux df d mb bt wt b (z.continuation_idx + 1)
          rw [ih b (z.continuation_idx + 1) (by omega) (by omega)]
        | none =>
          show find_pattern_aux df d mb bt wt a (i + 1)
             = find_pattern_aux df d mb bt wt b (i + 1)
          exact ih b (i + 1) (by omega) (by omega)
      · rw [if_neg hc, if_neg hc]

theorem find_pattern_aux_mem {df : List Candle} {d : String} {mb : ℕ} {bt wt : ℚ} :
    ∀ fuel i z, z ∈ find_pattern_aux df d mb bt wt fuel i →
      ∃ k, i ≤ k ∧ try_zone df d mb bt wt k = some z := by
  intro fuel
  induction fuel with
  | zero =>
    intro i z hz
    rw [find_pattern_aux_zero] at hz
    exact absurd hz (List.not_mem_nil z)
  | succ a ih =>
    intro i z hz
    rw [find_pattern_aux_succ] at hz
    by_cases hc : i + 2 < df.length
    · rw [if_pos hc] at hz
      cases htz : try_zone df d mb bt wt i with
      | some w =>
        rw [htz] at hz
        have hz' : z ∈ w :: find_pattern_aux df d mb bt wt a (w.continuation_idx + 1) := hz
        rcases List.mem_cons.mp hz' with h | h
        · subst h; exact ⟨i, le_refl i, htz⟩
        · obtain ⟨k, hk1, hk2⟩ := ih (w.continuation_idx + 1) z h
          have hb := try_zone_bounds htz
          exact ⟨k, by omega, hk2⟩
      | none =>
        rw [htz] at hz
        have hz' : z ∈ find_pattern_aux df d mb bt wt a (i + 1) := hz
        obtain ⟨k, hk1, hk2⟩ := ih (i + 1) z hz'
        exact ⟨k, by omega, hk2⟩
    · rw [if_neg hc] at hz
      exact absurd hz (List.not_mem_nil z)

theorem find_pattern_aux_chain {df : List Candle} {d : String} {mb : ℕ} {bt wt : ℚ} :
    ∀ fuel i,
      List.Chain'
        (fun z1 z2 => ∃ k, z1.continuation_idx < k ∧ try_zone df d mb bt wt k = some z2)
        (find_pattern_aux df d mb bt wt fuel i) := by
  intro fuel
  induction fuel with
  | zero => intro i; rw [find_pattern_aux_zero]; exact List.chain'_nil
  | succ a ih =>
    intro i
    rw [find_pattern_aux_succ]
    by_cases hc : i + 2 < df.length
    · rw [if_pos hc]
      cases htz : try_zone df d mb bt wt i with
      | some w =>
        show List.Chain' _ (w :: find_pattern_aux df d mb bt wt a (w.continuation_idx + 1))
        rw [List.chain'_cons']
        constructor
        · intro y hy
          have hym : y ∈ find_pattern_aux df d mb bt wt a (w.continuation_idx + 1) :=
            List.mem_of_mem_head? hy
          obtain ⟨k, hk1, hk2⟩ := find_pattern_aux_mem a (w.continuation_idx + 1) y hym
          exact ⟨k, by omega, hk2⟩
        · exact ih (w.continuation_idx + 1)
      | none =>
        show List.Chain' _ (find_pattern_aux df d mb bt wt a (i + 1))
        exact ih (i + 1)
    · rw [if_neg hc]; exact List.chain'_nil

theorem find_pattern_aux_unknown {df : List Candle} {d : String} {mb : ℕ} {bt wt : ℚ}
    (h1 : d ≠ "bullish") (h2 : d ≠ "bearish") (h3 : d ≠ "rbd") (h4 : d ≠ "dbr") :
    ∀ fuel i, find_pattern_aux df d mb bt wt fuel i = [] := by
  intro fuel
  induction fuel with
  | zero => intro i; rfl
  | succ a ih =>
    intro i
    rw [find_pattern_aux_succ, try_zone_unknown df mb bt wt i h1 h2 h3 h4]
    by_cases hc : i + 2 < df.length
    · rw [if_pos hc]
      show find_pattern_aux df d mb bt wt a (i + 1) = []
      exact ih (i + 1)
    · rw [if_neg hc]

theorem foldl_max_le (l : List ℚ) : ∀ a : ℚ, a ≤ l.foldl max a := by
  induction l with
  | nil => intro a; exact le_refl a
  | cons b t ih => intro a; exact le_trans (le_max_left a b) (ih (max a b))

theorem mem_le_foldl_max (l : List ℚ) : ∀ a x : ℚ, x ∈ l → x ≤ l.foldl max a := by
  induction l with
  | nil => intro a x hx; exact absurd hx (List.not_mem_nil x)
  | cons b t ih =>
    intro a x hx
    rcases List.mem_cons.mp hx with h | h
    · subst h; exact le_trans (le_max_right a x) (foldl_max_le t (max a x))
    · exact ih (max a b) x h

theorem foldl_max_mem (l : List ℚ) : ∀ a : ℚ, l.foldl max a = a ∨ l.foldl max a ∈ l := by
  induction l with
  | nil => intro a; left; rfl
  | cons b t ih =>
    intro a
    rw [List.foldl_cons]
    rcases ih (max a b) with h | h
    · rw [h]
      rcases max_choice a b with hm | hm
      · left; exact hm
      · right; rw [hm]; exact List.mem_cons_self b t
    · right; exact List.mem_cons_of_mem b h

theorem foldl_min_le (l : List ℚ) : ∀ a : ℚ, l.foldl min a ≤ a := by
  induction l with
  | nil => intro a; exact le_refl a
  | cons b t ih => intro a; exact le_trans (ih (min a b)) (min_le_left a b)

theorem foldl_min_le_mem (l : List ℚ) : ∀ a x : ℚ, x ∈ l → l.foldl min a ≤ x := by
  induction l with
  | nil => intro a x hx; exact absurd hx (List.not_mem_nil x)
  | cons b t ih =>
    intro a x hx
    rcases List.mem_cons.mp hx with h | h
    · subst h; exact le_trans (foldl_min_le t (min a x)) (min_le_right a x)
    · exact ih (min a b) x h

theorem foldl_min_mem (l : List ℚ) : ∀ a : ℚ, l.foldl min a = a ∨ l.foldl min a ∈ l := by
  induction l with
  | nil => intro a; left; rfl
  | cons b t ih =>
    intro a
    rw [List.foldl_cons]
    rcases ih (min a b) with h | h
    · rw [h]
      rcases min_choice a b with hm | hm
      · left; exact hm
      · right; rw [hm]; exact List.mem_cons_self b t
    · right; exact List.mem_cons_of_mem b h

theorem maxQ_cons (a : ℚ) (l : List ℚ) : maxQ (a :: l) = l.foldl max a := rfl

theorem minQ_cons (a : ℚ) (l : List ℚ) : minQ (a :: l) = l.foldl min a := rfl

theorem le_maxQ (l : List ℚ) (x : ℚ) (hx : x ∈ l) : x ≤ maxQ l := by
  cases l with
  | nil => exact absurd hx (List.not_mem_nil x)
  | cons a t =>
    rw [maxQ_cons]
    rcases List.mem_cons.mp hx with h | h
    · subst h; exact foldl_max_le t x
    · exact mem_le_foldl_max t a x h

theorem minQ_le (l : List ℚ) (x : ℚ) (hx : x ∈ l) : minQ l ≤ x := by
  cases l with
  | nil => exact absurd hx (List.not_mem_nil x)
  | cons a t =>
    rw [minQ_cons]
    rcases List.mem_cons.mp hx with h | h
    · subst h; exact foldl_min_le t x
    · exact foldl_min_le_mem t a x h

theorem minQ_mem (l : List ℚ) (hl : l ≠ []) : minQ l ∈ l := by
  cases l with
  | nil => exact absurd rfl hl
  | cons a t =>
    rw [minQ_cons]
    rcases foldl_min_mem t a with h | h
    · rw [h]; exact List.mem_cons_self a t
    · exact List.mem_cons_of_mem a h

theorem minQ_map_le_maxQ_map {bs : List Candle} (g f : Candle → ℚ) (hne : bs ≠ [])
    (h : ∀ b ∈ bs, g b ≤ f b) : minQ (bs.map g) ≤ maxQ (bs.map f) := by
  have hne' : bs.map g ≠ [] := by simpa using hne
  obtain ⟨b, hb, hgb⟩ := List.mem_map.mp (minQ_mem (bs.map g) hne')
  calc minQ (bs.map g) = g b := hgb.symm
    _ ≤ f b := h b hb
    _ ≤ maxQ (bs.map f) := le_maxQ _ _ (List.mem_map_of_mem f hb)

theorem bases_list_ne_nil {df : List Candle} {i j : ℕ} (h1 : i + 1 < j)
    (h2 : j ≤ df.length) : bases_list df i j ≠ [] := by
  intro hnil
  have hl : (bases_list df i j).length = 0 := by rw [hnil]; rfl
  rw [bases_list] at hl
  rw [List.length_take, List.length_drop] at hl
  omega

theorem bases_list_subset {df : List Candle} {i j : ℕ} : bases_list df i j ⊆ df := by
  intro b hb
  exact List.drop_subset (i + 1) df (List.take_subset _ _ hb)

theorem scan_low_persist (low high : ℚ) :
    ∀ (l : List Candle) (st : RState), st.signal = true →
      (scan_low low high l st).signal = true ∧
      (scan_low low high l st).price = st.price ∧
      (scan_low low high l st).date = st.date := by
  intro l
  induction l with
  | nil => intro st h; exact ⟨h, rfl, rfl⟩
  | cons c rest ih =>
    intro st h
    simp only [scan_low]
    have hcond : ¬ (st.signal = false ∧ low ≤ c.low ∧ c.low ≤ high) := by
      rw [h]; simp
    rw [if_neg hcond]
    by_cases hb : c.low < low
    · rw [if_pos hb]
      exact ⟨h, rfl, rfl⟩
    · rw [if_neg hb]
      exact ih st h

theorem scan_high_persist (low high : ℚ) :
    ∀ (l : List Candle) (st : RState), st.signal = true →
      (scan_high low high l st).signal = true ∧
      (scan_high low high l st).price = st.price ∧
      (scan_high low high l st).date = st.date := by
  intro l
  induction l with
  | nil => intro st h; exact ⟨h, rfl, rfl⟩
  | cons c rest ih =>
    intro st h
    simp only [scan_high]
    have hcond : ¬ (st.signal = false ∧ low ≤ c.high ∧ c.high ≤ high) := by
      rw [h]; simp
    rw [if_neg hcond]
    by_cases hb : high < c.high
    · rw [if_pos hb]
      exact ⟨h, rfl, rfl⟩
    · rw [if_neg hb]
      exact ih st h

theorem scan_low_first_touch (low high : ℚ) :
    ∀ l : List Candle,
      (scan_low low high l rstart).signal = (spec_first_touch_low low high l).isSome ∧
      (scan_low low high l rstart).price = (spec_first_touch_low low high l).map Candle.low ∧
      (scan_low low high l rstart).date = (spec_first_touch_low low high l).map Candle.date := by
  intro l
  induction l with
  | nil => exact ⟨rfl, rfl, rfl⟩
  | cons c rest ih =>
    by_cases hb : c.low < low
    · have hcond : ¬ (rstart.signal = false ∧ low ≤ c.low ∧ c.low ≤ high) :=
        fun hx => absurd hx.2.1 (not_le.mpr hb)
      have hspec : spec_first_touch_low low high (c :: rest) = none := by
        simp [spec_first_touch_low, not_le.mpr hb]
      simp only [scan_low]
      rw [if_neg hcond, if_pos hb, hspec]
      exact ⟨rfl, rfl, rfl⟩
    · have hle : low ≤ c.low := not_lt.mp hb
      by_cases ht : c.low ≤ high
      · have hcond : rstart.signal = false ∧ low ≤ c.low ∧ c.low ≤ high := ⟨rfl, hle, ht⟩
        have hspec : spec_first_touch_low low high (c :: rest) = some c := by
          simp [spec_first_touch_low, hle, ht]
        simp only [scan_low]
        rw [if_pos hcond, if_neg hb, hspec]
        have hp := scan_low_persist low high rest
          { rstart with signal := true, price := some c.low, date := some c.date } rfl
        exact ⟨hp.1, hp.2.1, hp.2.2⟩
      · have hcond : ¬ (rstart.signal = false ∧ low ≤ c.low ∧ c.low ≤ high) :=
          fun hx => ht hx.2.2
        have hspec : spec_first_touch_low low high (c :: rest)
            = spec_first_touch_low low high rest := by
          simp [spec_first_touch_low, hle, ht]
        simp only [scan_low]
        rw [if_neg hcond, if_neg hb, hspec]
        exact ih

theorem scan_high_first_touch (low high : ℚ) :
    ∀ l : List Candle,
      (scan_high low high l rstart).signal = (spec_first_touch_high low high l).isSome ∧
      (scan_high low high l rstart).price = (spec_first_touch_high low high l).map Candle.high ∧
      (scan_high low high l rstart).date = (spec_first_touch_high low high l).map Candle.date := by
  intro l
  induction l with
  | nil => exact ⟨rfl, rfl, rfl⟩
  | cons c rest ih =>
    by_cases hb : high < c.high
    · have hcond : ¬ (rstart.signal = false ∧ low ≤ c.high ∧ c.high ≤ high) :=
        fun hx => absurd hx.2.2 (not_le.mpr hb)
      have hspec : spec_first_touch_high low high (c :: rest) = none := by
        simp [spec_first_touch_high, not_le.mpr hb]
      simp only [scan_high]
      rw [if_neg hcond, if_pos hb, hspec]
      exact ⟨rfl, rfl, rfl⟩
    · have hle : c.high ≤ high := not_lt.mp hb
      by_cases ht : low ≤ c.high
      · have hcond : rstart.signal = false ∧ low ≤ c.high ∧ c.high ≤ high := ⟨rfl, ht, hle⟩
        have hspec : spec_first_touch_high low high (c :: rest) = some c := by
          simp [spec_first_touch_high, hle, ht]
        simp only [scan_high]
        rw [if_pos hcond, if_neg hb, hspec]
        have hp := scan_high_persist low high rest
          { rstart with signal := true, price := some c.high, date := some c.date } rfl
        exact ⟨hp.1, hp.2.1, hp.2.2⟩
      · have hcond : ¬ (rstart.signal = false ∧ low ≤ c.high ∧ c.high ≤ high) :=
          fun hx => ht hx.2.1
        have hspec : spec_first_touch_high low high (c :: rest)
            = spec_first_touch_high low high rest := by
          simp [spec_first_touch_high, hle, ht]
        simp only [scan_high]
        rw [if_neg hcond, if_neg hb, hspec]
        exact ih

theorem scan_low_breach (low high : ℚ) (c : Candle) (rest : List Candle) (st : RState)
    (hb : c.low < low) : scan_low low high (c :: rest) st = { st with invalid := true } := by
  simp only [scan_low]
  have hcond : ¬ (st.signal = false ∧ low ≤ c.low ∧ c.low ≤ high) :=
    fun hx => absurd hx.2.1 (not_le.mpr hb)
  rw [if_neg hcond, if_pos hb]

theorem scan_high_breach (low high : ℚ) (c : Candle) (rest : List Candle) (st : RState)
    (hb : high < c.high) : scan_high low high (c :: rest) st = { st with invalid := true } := by
  simp only [scan_high]
  have hcond : ¬ (st.signal = false ∧ low ≤ c.high ∧ c.high ≤ high) :=
    fun hx => absurd hx.2.2 (not_le.mpr hb)
  rw [if_neg hcond, if_pos hb]

theorem scan_low_stops (low high : ℚ) (c : Candle) (hb : c.low < low) :
    ∀ (l1 l2 : List Candle) (st : RState),
      scan_low low high (l1 ++ c :: l2) st = scan_low low high (l1 ++ [c]) st := by
  intro l1
  induction l1 with
  | nil =>
    intro l2 st
    rw [List.nil_append, List.nil_append, scan_low_breach low high c l2 st hb,
        scan_low_breach low high c [] st hb]
  | cons a t ih =>
    intro l2 st
    rw [List.cons_append, List.cons_append]
    simp only [scan_low]
    by_cases hba : a.low < low
    · simp only [if_pos hba]
    · simp only [if_neg hba]
      exact ih l2 _

theorem scan_high_stops (low high : ℚ) (c : Candle) (hb : high < c.high) :
    ∀ (l1 l2 : List Candle) (st : RState),
      scan_high low high (l1 ++ c :: l2) st = scan_high low high (l1 ++ [c]) st := by
  intro l1
  induction l1 with
  | nil =>
    intro l2 st
    rw [List.nil_append, List.nil_append, scan_high_breach low high c l2 st hb,
        scan_high_breach low high c [] st hb]
  | cons a t ih =>
    intro l2 st
    rw [List.cons_append, List.cons_append]
    simp only [scan_high]
    by_cases hba : high < a.high
    · simp only [if_pos hba]
    · simp only [if_neg hba]
      exact ih l2 _

theorem scan_low_no_breach (low high : ℚ) :
    ∀ (l : List Candle) (st : RState), (∀ c ∈ l, ¬ c.low < low) →
      (scan_low low high l st).invalid = st.invalid := by
  intro l
  induction l with
  | nil => intro st _; rfl
  | cons c rest ih =>
    intro st h
    simp only [scan_low]
    rw [if_neg (h c (List.mem_cons_self c rest))]
    by_cases hcond : st.signal = false ∧ low ≤ c.low ∧ c.low ≤ high
    · rw [if_pos hcond]
      exact ih _ (fun c' hc' => h c' (List.mem_cons_of_mem c hc'))
    · rw [if_neg hcond]
      exact ih st (fun c' hc' => h c' (List.mem_cons_of_mem c hc'))

theorem scan_high_no_breach (low high : ℚ) :
    ∀ (l : List Candle) (st : RState), (∀ c ∈ l, ¬ high < c.high) →
      (scan_high low high l st).invalid = st.invalid := by
  intro l
  induction l with
  | nil => intro st _; rfl
  | cons c rest ih =>
    intro st h
    simp only [scan_high]
    rw [if_neg (h c (List.mem_cons_self c rest))]
    by_cases hcond : st.signal = false ∧ low ≤ c.high ∧ c.high ≤ high
    · rw [if_pos hcond]
      exact ih _ (fun c' hc' => h c' (List.mem_cons_of_mem c hc'))
    · rw [if_neg hcond]
      exact ih st (fun c' hc' => h c' (List.mem_cons_of_mem c hc'))

theorem scan_low_continue (low high : ℚ) (c : Candle) (rest : List Candle) (st : RState)
    (hs : st.signal = true) (hb : ¬ c.low < low) :
    scan_low low high (c :: rest) st = scan_low low high rest st := by
  simp only [scan_low]
  have hcond : ¬ (st.signal = false ∧ low ≤ c.low ∧ c.low ≤ high) := by
    rw [hs]; simp
  rw [if_neg hcond, if_neg hb]

theorem scan_high_continue (low high : ℚ) (c : Candle) (rest : List Candle) (st : RState)
    (hs : st.signal = true) (hb : ¬ high < c.high) :
    scan_high low high (c :: rest) st = scan_high low high rest st := by
  simp only [scan_high]
  have hcond : ¬ (st.signal = false ∧ low ≤ c.high ∧ c.high ≤ high) := by
    rw [hs]; simp
  rw [if_neg hcond, if_neg hb]

theorem find_pattern_aux_stop (df : List Candle) (d : String) (mb : ℕ) (bt wt : ℚ)
    (fuel i : ℕ) (h : ¬ i + 2 < df.length) :
    find_pattern_aux df d mb bt wt fuel i = [] := by
  cases fuel with
  | zero => rfl
  | succ a => rw [find_pattern_aux_succ, if_neg h]

theorem try_rbr_zone_props {df : List Candle} {mb : ℕ} {bt wt : ℚ} {i : ℕ} {z : Zone}
    (hwf : wellformed df) (h : try_rbr df mb bt wt i = some z) :
    z.zone_low ≤ z.zone_high ∧ 1 ≤ z.num_base_candles ∧ z.num_base_candles ≤ mb ∧
    z.continuation_idx = i + 1 + z.num_base_candles ∧
    ∀ k, i + 1 ≤ k → k ≤ i + z.num_base_candles →
      is_base bt wt (nth df k) ∧ k < z.continuation_idx := by
  obtain ⟨j, hj, -, h2, h3, -, hzeq⟩ := try_rbr_inv h
  have hlow : z.zone_low = minQ ((bases_list df i j).map Candle.low) := by rw [hzeq]
  have hhigh : z.zone_high = maxQ ((bases_list df i j).map body_high) := by rw [hzeq]
  have hnum : z.num_base_candles = j - (i + 1) := by rw [hzeq]
  have hcont : z.continuation_idx = j := by rw [hzeq]
  have hcb := collect_bases_le df bt wt mb (i + 1)
  refine ⟨?_, by omega, by omega, by omega, ?_⟩
  · rw [hlow, hhigh]
    refine minQ_map_le_maxQ_map Candle.low body_high (bases_list_ne_nil h2 (le_of_lt h3)) ?_
    intro b hb
    have hwfb := hwf b (bases_list_subset hb)
    exact le_trans hwfb.1 min_le_max
  · intro k hk1 hk2
    rw [hnum] at hk2
    have hkj : k < collect_bases df bt wt mb (i + 1) := by rw [hj]; omega
    obtain ⟨-, hbase⟩ := collect_bases_is_base df bt wt mb (i + 1) k hk1 hkj
    exact ⟨hbase, by omega⟩

theorem try_dbd_zone_props {df : List Candle} {mb : ℕ} {bt wt : ℚ} {i : ℕ} {z : Zone}
    (hwf : wellformed df) (h : try_dbd df mb bt wt i = some z) :
    z.zone_low ≤ z.zone_high ∧ 1 ≤ z.num_base_candles ∧ z.num_base_candles ≤ mb ∧
    z.continuation_idx = i + 1 + z.num_base_candles ∧
    ∀ k, i + 1 ≤ k → k ≤ i + z.num_base_candles →
      is_base bt wt (nth df k) ∧ k < z.continuation_idx := by
  obtain ⟨j, hj, -, h2, h3, -, hzeq⟩ := try_dbd_inv h
  have hlow : z.zone_low = minQ ((bases_list df i j).map body_low) := by rw [hzeq]
  have hhigh : z.zone_high = maxQ ((bases_list df i j).map Candle.high) := by rw [hzeq]
  have hnum : z.num_base_candles = j - (i + 1) := by rw [hzeq]
  have hcont : z.continuation_idx = j := by rw [hzeq]
  have hcb := collect_bases_le df bt wt mb (i + 1)
  refine ⟨?_, by omega, by omega, by omega, ?_⟩
  · rw [hlow, hhigh]
    refine minQ_map_le_maxQ_map body_low Candle.high (bases_list_ne_nil h2 (le_of_lt h3)) ?_
    intro b hb
    have hwfb := hwf b (bases_list_subset hb)
    exact le_trans min_le_max hwfb.2
  · intro k hk1 hk2
    rw [hnum] at hk2
    have hkj : k < collect_bases df bt wt mb (i + 1) := by rw [hj]; omega
    obtain ⟨-, hbase⟩ := collect_bases_is_base df bt wt mb (i + 1) k hk1 hkj
    exact ⟨hbase, by omega⟩

theorem try_rbd_zone_props {df : List Candle} {mb : ℕ} {bt wt : ℚ} {i : ℕ} {z : Zone}
    (hwf : wellformed df) (h : try_rbd df mb bt wt i = some z) :
    z.zone_low ≤ z.zone_high ∧ 1 ≤ z.num_base_candles ∧ z.num_base_candles ≤ mb ∧
    z.continuation_idx = i + 1 + z.num_base_candles ∧
    ∀ k, i + 1 ≤ k → k ≤ i + z.num_base_candles →
      is_base bt wt (nth df k) ∧ k < z.continuation_idx := by
  obtain ⟨j, hj, -, h2, h3, -, -, hzeq⟩ := try_rbd_inv h
  have hlow : z.zone_low = minQ ((bases_list df i j).map body_low) := by rw [hzeq]
  have hhigh : z.zone_high = maxQ ((bases_list df i j).map Candle.high) := by rw [hzeq]
  have hnum : z.num_base_candles = j - (i + 1) := by rw [hzeq]
  have hcont : z.continuation_idx = j := by rw [hzeq]
  have hcb := collect_bases_le df bt wt mb (i + 1)
  refine ⟨?_, by omega, by omega, by omega, ?_⟩
  · rw [hlow, hhigh]
    refine minQ_map_le_maxQ_map body_low Candle.high (bases_list_ne_nil h2 (le_of_lt h3)) ?_
    intro b hb
    have hwfb := hwf b (bases_list_subset hb)
    exact le_trans min_le_max hwfb.2
  · intro k hk1 hk2
    rw [hnum] at hk2
    have hkj : k < collect_bases df bt wt mb (i + 1) := by rw [hj]; omega
    obtain ⟨-, hbase⟩ := collect_bases_is_base df bt wt mb (i + 1) k hk1 hkj
    exact ⟨hbase, by omega⟩

theorem try_dbr_zone_props {df : List Candle} {mb : ℕ} {bt wt : ℚ} {i : ℕ} {z : Zone}
    (hwf : wellformed df) (h : try_dbr df mb bt wt i = some z) :
    z.zone_low ≤ z.zone_high ∧ 1 ≤ z.num_base_candles ∧ z.num_base_candles ≤ mb ∧
    z.continuation_idx = i + 1 + z.num_base_candles ∧
    ∀ k, i + 1 ≤ k → k ≤ i + z.num_base_candles →
      is_base bt wt (nth df k) ∧ k < z.continuation_idx := by
  obtain ⟨j, hj, -, h2, h3, -, -, hzeq⟩ := try_dbr_inv h
  have hlow : z.zone_low = minQ ((bases_list df i j).map Candle.low) := by rw [hzeq]
  have hhigh : z.zone_high = maxQ ((bases_list df i j).map body_high) := by rw [hzeq]
  have hnum : z.num_base_candles = j - (i + 1) := by rw [hzeq]
  have hcont : z.continuation_idx = j := by rw [hzeq]
  have hcb := collect_bases_le df bt wt mb (i + 1)
  refine ⟨?_, by omega, by omega, by omega, ?_⟩
  · rw [hlow, hhigh]
    refine minQ_map_le_maxQ_map Candle.low body_high (bases_list_ne_nil h2 (le_of_lt h3)) ?_
    intro b hb
    have hwfb := hwf b (bases_list_subset hb)
    exact le_trans hwfb.1 min_le_max
  · intro k hk1 hk2
    rw [hnum] at hk2
    have hkj : k < collect_bases df bt wt mb (i + 1) := by rw [hj]; omega
    obtain ⟨-, hbase⟩ := collect_bases_is_base df bt wt mb (i + 1) k hk1 hkj
    exact ⟨hbase, by omega⟩

theorem try_rbd_guard_props {df : List Candle} {mb : ℕ} {bt wt : ℚ} {i : ℕ} {z : Zone}
    (h : try_rbd df mb bt wt i = some z) :
    impulse_bull bt wt (nth df i) ∧ i + 1 < z.continuation_idx ∧
    (∀ k, i < k → k < z.continuation_idx → is_base bt wt (nth df k)) ∧
    impulse_bear bt wt (nth df z.continuation_idx) ∧
    (nth df z.continuation_idx).close < (nth df i).low := by
  obtain ⟨j, hj, hbull, h2, h3, hbear, hlt, hzeq⟩ := try_rbd_inv h
  have hcont : z.continuation_idx = j := by rw [hzeq]
  refine ⟨hbull, by omega, ?_, ?_, ?_⟩
  · intro k hk1 hk2
    rw [hcont] at hk2
    have hkj : k < collect_bases df bt wt mb (i + 1) := by rw [hj]; omega
    exact (collect_bases_is_base df bt wt mb (i + 1) k (by omega) hkj).2
  · rw [hcont]; exact hbear
  · rw [hcont]; exact hlt

theorem try_dbr_guard_props {df : List Candle} {mb : ℕ} {bt wt : ℚ} {i : ℕ} {z : Zone}
    (h : try_dbr df mb bt wt i = some z) :
    impulse_bear bt wt (nth df i) ∧ i + 1 < z.continuation_idx ∧
    (∀ k, i < k → k < z.continuation_idx → is_base bt wt (nth df k)) ∧
    impulse_bull bt wt (nth df z.continuation_idx) ∧
    (nth df i).high < (nth df z.continuation_idx).close := by
  obtain ⟨j, hj, hbear, h2, h3, hbull, hlt, hzeq⟩ := try_dbr_inv h
  have hcont : z.continuation_idx = j := by rw [hzeq]
  refine ⟨hbear, by omega, ?_, ?_, ?_⟩
  · intro k hk1 hk2
    rw [hcont] at hk2
    have hkj : k < collect_bases df bt wt mb (i + 1) := by rw [hj]; omega
    exact (collect_bases_is_base df bt wt mb (i + 1) k (by omega) hkj).2
  · rw [hcont]; exact hbull
  · rw [hcont]; exact hlt

theorem scenario_try_zone_0 :
    try_zone scenario_df "bullish" 4 (65/100) (35/100) 0 = none := by
  norm_num [try_zone, try_rbr, impulse_bull, is_bullish, nth, scenario_df,
    candle_body, candle_size, wick_sum, dummy_candle]

theorem scenario_try_zone_1 :
    try_zone scenario_df "bullish" 4 (65/100) (35/100) 1 =
      some { pattern_type := "RBR", date_base := 2, zone_low := 107, zone_high := 109,
             zone_height := 2, num_base_candles := 1, continuation_idx := 3 } := by
  norm_num [try_zone, try_rbr, impulse_bull, is_bullish, nth, scenario_df,
    candle_body, candle_size, wick_sum, dummy_candle, collect_bases, is_base,
    bases_list, maxQ, minQ, body_high, Zone.mk.injEq]

theorem scenario_eval :
    find_pattern scenario_df "bullish" 4 (65/100) (35/100) =
      [{ pattern_type := "RBR", date_base := 2, zone_low := 107, zone_high := 109,
         zone_height := 2, num_base_candles := 1, continuation_idx := 3 }] := by
  have estop : find_pattern_aux scenario_df "bullish" 4 (65/100) (35/100) 2 4 = [] :=
    find_pattern_aux_stop _ _ _ _ _ 2 4 (by norm_num [scenario_df])
  rw [find_pattern]
  show find_pattern_aux scenario_df "bullish" 4 (65/100) (35/100) (3 + 1) 0 = _
  rw [find_pattern_aux_succ,
    if_pos (by norm_num [scenario_df] : (0:ℕ) + 2 < scenario_df.length),
    scenario_try_zone_0]
  show find_pattern_aux scenario_df "bullish" 4 (65/100) (35/100) (2 + 1) 1 = _
  rw [find_pattern_aux_succ,
    if_pos (by norm_num [scenario_df] : (1:ℕ) + 2 < scenario_df.length),
    scenario_try_zone_1]
  simp [estop]

theorem five_base_try_zone_0_mb7 :
    try_zone five_base_df "bullish" 7 (65/100) (35/100) 0 =
      some { pattern_type := "RBR", date_base := 1, zone_low := 107, zone_high := 109,
             zone_height := 2, num_base_candles := 5, continuation_idx := 6 } := by
  norm_num [try_zone, try_rbr, impulse_bull, is_bullish, nth, five_base_df,
    candle_body, candle_size, wick_sum, dummy_candle, collect_bases, is_base,
    bases_list, maxQ, minQ, body_high, Zone.mk.injEq]

theorem five_base_mb7_eval :
    find_pattern five_base_df "bullish" 7 (65/100) (35/100) =
      [{ pattern_type := "RBR", date_base := 1, zone_low := 107, zone_high := 109,
         zone_height := 2, num_base_candles := 5, continuation_idx := 6 }] := by
  have estop : find_pattern_aux five_base_df "bullish" 7 (65/100) (35/100) 6 7 = [] :=
    find_pattern_aux_stop _ _ _ _ _ 6 7 (by norm_num [five_base_df])
  rw [find_pattern]
  show find_pattern_aux five_base_df "bullish" 7 (65/100) (35/100) (6 + 1) 0 = _
  rw [find_pattern_aux_succ,
    if_pos (by norm_num [five_base_df] : (0:ℕ) + 2 < five_base_df.length),
    five_base_try_zone_0_mb7]
  simp [estop]

theorem five_base_try_zone_mb4_0 :
    try_zone five_base_df "bullish" 4 (65/100) (35/100) 0 = none := by
  norm_num [try_zone, try_rbr, impulse_bull, is_bullish, nth, five_base_df,
    candle_body, candle_size, wick_sum, dummy_candle, collect_bases, is_base,
    bases_list, maxQ, minQ, body_high]

theorem five_base_try_zone_mb4_1 :
    try_zone five_base_df "bullish" 4 (65/100) (35/100) 1 = none := by
  norm_num [try_zone, try_rbr, impulse_bull, is_bullish, nth, five_base_df,
    candle_body, candle_size, wick_sum, dummy_candle, collect_bases, is_base,
    bases_list, maxQ, minQ, body_high]

theorem five_base_try_zone_mb4_2 :
    try_zone five_base_df "bullish" 4 (65/100) (35/100) 2 = none := by
  norm_num [try_zone, try_rbr, impulse_bull, is_bullish, nth, five_base_df,
    candle_body, candle_size, wick_sum, dummy_candle, collect_bases, is_base,
    bases_list, maxQ, minQ, body_high]

theorem five_base_try_zone_mb4_3 :
    try_zone five_base_df "bullish" 4 (65/100) (35/100) 3 = none := by
  norm_num [try_zone, try_rbr, impulse_bull, is_bullish, nth, five_base_df,
    candle_body, candle_size, wick_sum, dummy_candle, collect_bases, is_base,
    bases_list, maxQ, minQ, body_high]

theorem five_base_try_zone_mb4_4 :
    try_zone five_base_df "bullish" 4 (65/100) (35/100) 4 = none := by
  norm_num [try_zone, try_rbr, impulse_bull, is_bullish, nth, five_base_df,
    candle_body, candle_size, wick_sum, dummy_candle, collect_bases, is_base,
    bases_list, maxQ, minQ, body_high]

theorem five_base_mb4_eval :
    find_pattern five_base_df "bullish" 4 (65/100) (35/100) = [] := by
  rw [find_pattern]
  show find_pattern_aux five_base_df "bullish" 4 (65/100) (35/100) (6 + 1) 0 = _
  rw [find_pattern_aux_succ,
    if_pos (by norm_num [five_base_df] : (0:ℕ) + 2 < five_base_df.length),
    five_base_try_zone_mb4_0]
  show find_pattern_aux five_base_df "bullish" 4 (65/100) (35/100) (5 + 1) 1 = _
  rw [find_pattern_aux_succ,
    if_pos (by norm_num [five_base_df] : (1:ℕ) + 2 < five_base_df.length),
    five_base_try_zone_mb4_1]
  show find_pattern_aux five_base_df "bullish" 4 (65/100) (35/100) (4 + 1) 2 = _
  rw [find_pattern_aux_succ,
    if_pos (by norm_num [five_base_df] : (2:ℕ) + 2 < five_base_df.length),
    five_base_try_zone_mb4_2]
  show find_pattern_aux five_base_df "bullish" 4 (65/100) (35/100) (3 + 1) 3 = _
  rw [find_pattern_aux_succ,
    if_pos (by norm_num [five_base_df] : (3:ℕ) + 2 < five_base_df.length),
    five_base_try_zone_mb4_3]
  show find_pattern_aux five_base_df "bullish" 4 (65/100) (35/100) (2 + 1) 4 = _
  rw [find_pattern_aux_succ,
    if_pos (by norm_num [five_base_df] : (4:ℕ) + 2 < five_base_df.length),
    five_base_try_zone_mb4_4]
  show find_pattern_aux five_base_df "bullish" 4 (65/100) (35/100) 2 5 = _
  exact find_pattern_aux_stop _ _ _ _ _ 2 5 (by norm_num [five_base_df])

theorem rbd_try_zone_0 :
    try_zone rbd_df "rbd" 4 (65/100) (35/100) 0 =
      some { pattern_type := "RBD", date_base := 1, zone_low := 108, zone_high := 110,
             zone_height := 2, num_base_candles := 1, continuation_idx := 2 } := by
  rw [try_zone_rbd]
  norm_num [try_rbd, impulse_bull, impulse_bear, is_bullish, is_bearish,
    nth, rbd_df, candle_body, candle_size, wick_sum, dummy_candle, collect_bases,
    is_base, bases_list, maxQ, minQ, body_low, Zone.mk.injEq]

theorem rbd_eval :
    find_pattern rbd_df "rbd" 4 (65/100) (35/100) =
      [{ pattern_type := "RBD", date_base := 1, zone_low := 108, zone_high := 110,
         zone_height := 2, num_base_candles := 1, continuation_idx := 2 }] := by
  have estop : find_pattern_aux rbd_df "rbd" 4 (65/100) (35/100) 2 3 = [] :=
    find_pattern_aux_stop _ _ _ _ _ 2 3 (by norm_num [rbd_df])
  rw [find_pattern]
  show find_pattern_aux rbd_df "rbd" 4 (65/100) (35/100) (2 + 1) 0 = _
  rw [find_pattern_aux_succ,
    if_pos (by norm_num [rbd_df] : (0:ℕ) + 2 < rbd_df.length),
    rbd_try_zone_0]
  simp [estop]

/-- C1: on the spec's four-candle RBR scenario (C0 neutral, C1 bullish impulse,
C2 base, C3 bullish impulse) with default thresholds body_threshold = 0.65,
wick_threshold = 0.35, max_bases = 4, detection emits exactly one zone, with
zone_low = 107 (C2.low), zone_high = 109 (max(open, close) of C2),
anchor date = C2's date and continuation index 3. -/
theorem rbr_scenario_zone :
    find_pattern scenario_df "bullish" 4 (65/100) (35/100) =
      [{ pattern_type := "RBR", date_base := 2, zone_low := 107, zone_high := 109,
         zone_height := 2, num_base_candles := 1, continuation_idx := 3 }] :=
  scenario_eval

/-- C2: a zone of variant RBD is emitted only when its second impulse (the
candle at continuation_idx) is a bearish impulse whose close is strictly below
the low of the first impulse candle, and a DBR zone only when its second
impulse is a bullish impulse closing strictly above the first impulse's high;
the witnessing i is the first-impulse index, with the base run in between. -/
theorem rbd_dbr_reversal_guard :
    (∀ (df : List Candle) (mb : ℕ) (bt wt : ℚ) (z : Zone),
      z ∈ find_pattern df "rbd" mb bt wt →
      ∃ i, impulse_bull bt wt (nth df i) ∧ i + 1 < z.continuation_idx ∧
        (∀ k, i < k → k < z.continuation_idx → is_base bt wt (nth df k)) ∧
        impulse_bear bt wt (nth df z.continuation_idx) ∧
        (nth df z.continuation_idx).close < (nth df i).low) ∧
    (∀ (df : List Candle) (mb : ℕ) (bt wt : ℚ) (z : Zone),
      z ∈ find_pattern df "dbr" mb bt wt →
      ∃ i, impulse_bear bt wt (nth df i) ∧ i + 1 < z.continuation_idx ∧
        (∀ k, i < k → k < z.continuation_idx → is_base bt wt (nth df k)) ∧
        impulse_bull bt wt (nth df z.continuation_idx) ∧
        (nth df i).high < (nth df z.continuation_idx).close) := by
  constructor
  · intro df mb bt wt z hz
    rw [find_pattern] at hz
    obtain ⟨i, -, htz⟩ := find_pattern_aux_mem df.length 0 z hz
    rw [try_zone_rbd] at htz
    exact ⟨i, try_rbd_guard_props htz⟩
  · intro df mb bt wt z hz
    rw [find_pattern] at hz
    obtain ⟨i, -, htz⟩ := find_pattern_aux_mem df.length 0 z hz
    rw [try_zone_dbr] at htz
    exact ⟨i, try_dbr_guard_props htz⟩

/-- Witness for C2: the reversal-guard characterization instantiated on the
concrete RBD series rbd_df and the zone it produces. -/
theorem rbd_dbr_reversal_guard_witness :
    ∃ i, impulse_bull (65/100) (35/100) (nth rbd_df i) ∧ i + 1 < 2 ∧
      (∀ k, i < k → k < 2 → is_base (65/100) (35/100) (nth rbd_df k)) ∧
      impulse_bear (65/100) (35/100) (nth rbd_df 2) ∧
      (nth rbd_df 2).close < (nth rbd_df i).low :=
  rbd_dbr_reversal_guard.1 rbd_df 4 (65/100) (35/100)
    { pattern_type := "RBD", date_base := 1, zone_low := 108, zone_high := 110,
      zone_height := 2, num_base_candles := 1, continuation_idx := 2 }
    (by rw [rbd_eval]; exact List.mem_singleton.mpr rfl)

/-- C3: a retest scan records at most one signal.  Once the signal flag is
set, further scanning never changes signal, price or date (first conjunct per
direction); from the initial state, the recorded fields are exactly those of
the first candle whose touching price lies in [zone_low, zone_high] among the
candles before the first breach (second conjunct); and scanning continues
past a recorded signal instead of stopping (third conjunct). -/
theorem retest_first_touch :
    (∀ (low high : ℚ) (l : List Candle) (st : RState), st.signal = true →
      (scan_low low high l st).signal = true ∧
      (scan_low low high l st).price = st.price ∧
      (scan_low low high l st).date = st.date) ∧
    (∀ (low high : ℚ) (l : List Candle),
      (scan_low low high l rstart).signal = (spec_first_touch_low low high l).isSome ∧
      (scan_low low high l rstart).price = (spec_first_touch_low low high l).map Candle.low ∧
      (scan_low low high l rstart).date = (spec_first_touch_low low high l).map Candle.date) ∧
    (∀ (low high : ℚ) (c : Candle) (rest : List Candle) (st : RState),
      st.signal = true → ¬ c.low < low →
      scan_low low high (c :: rest) st = scan_low low high rest st) ∧
    (∀ (low high : ℚ) (l : List Candle) (st : RState), st.signal = true →
      (scan_high low high l st).signal = true ∧
      (scan_high low high l st).price = st.price ∧
      (scan_high low high l st).date = st.date) ∧
    (∀ (low high : ℚ) (l : List Candle),
      (scan_high low high l rstart).signal = (spec_first_touch_high low high l).isSome ∧
      (scan_high low high l rstart).price = (spec_first_touch_high low high l).map Candle.high ∧
      (scan_high low high l rstart).date = (spec_first_touch_high low high l).map Candle.date) ∧
    (∀ (low high : ℚ) (c : Candle) (rest : List Candle) (st : RState),
      st.signal = true → ¬ high < c.high →
      scan_high low high (c :: rest) st = scan_high low high rest st) := by
  refine ⟨?_, ?_, ?_, ?_, ?_, ?_⟩
  · intro low high l st h; exact scan_low_persist low high l st h
  · intro low high l; exact scan_low_first_touch low high l
  · intro low high c rest st hs hb; exact scan_low_continue low high c rest st hs hb
  · intro low high l st h; exact scan_high_persist low high l st h
  · intro low high l; exact scan_high_first_touch low high l
  · intro low high c rest st hs hb; exact scan_high_continue low high c rest st hs hb

/-- Witness for C3: persistence applied to a concrete already-signalled state
and one further candle. -/
theorem retest_first_touch_witness :
    (scan_low 2 3 [⟨0, 0, 5, 0, 7⟩] ⟨true, some 11, some 9, false⟩).signal = true ∧
    (scan_low 2 3 [⟨0, 0, 5, 0, 7⟩] ⟨true, some 11, some 9, false⟩).price = some 11 ∧
    (scan_low 2 3 [⟨0, 0, 5, 0, 7⟩] ⟨true, some 11, some 9, false⟩).date = some 9 :=
  retest_first_touch.1 2 3 [⟨0, 0, 5, 0, 7⟩] ⟨true, some 11, some 9, false⟩ rfl

/-- C4: for demand-zone scans, the first candle whose low falls strictly below
zone_low terminates the scan immediately (everything after the first breach is
ignored), sets invalidated on whatever state was reached — preserving an
already-recorded signal, so signal and invalidated can both end true (concrete
conjunct) — and if no candle breaches, invalidated keeps its initial (false)
value.  Supply-zone scans behave symmetrically with high > zone_high. -/
theorem retest_invalidation :
    (∀ (low high : ℚ) (c : Candle), c.low < low →
      ∀ (l1 l2 : List Candle) (st : RState),
        scan_low low high (l1 ++ c :: l2) st = scan_low low high (l1 ++ [c]) st) ∧
    (∀ (low high : ℚ) (c : Candle) (l2 : List Candle) (st : RState), c.low < low →
      scan_low low high (c :: l2) st = { st with invalid := true }) ∧
    (∀ (low high : ℚ) (l : List Candle) (st : RState), (∀ c ∈ l, ¬ c.low < low) →
      (scan_low low high l st).invalid = st.invalid) ∧
    (scan_low 107 109 [⟨108, 112, 108, 110, 4⟩, ⟨105, 110, 106, 109, 5⟩] rstart
      = { signal := true, price := some 108, date := some 4, invalid := true }) ∧
    (∀ (low high : ℚ) (c : Candle), high < c.high →
      ∀ (l1 l2 : List Candle) (st : RState),
        scan_high low high (l1 ++ c :: l2) st = scan_high low high (l1 ++ [c]) st) ∧
    (∀ (low high : ℚ) (c : Candle) (l2 : List Candle) (st : RState), high < c.high →
      scan_high low high (c :: l2) st = { st with invalid := true }) ∧
    (∀ (low high : ℚ) (l : List Candle) (st : RState), (∀ c ∈ l, ¬ high < c.high) →
      (scan_high low high l st).invalid = st.invalid) := by
  refine ⟨?_, ?_, ?_, ?_, ?_, ?_, ?_⟩
  · intro low high c hb l1 l2 st; exact scan_low_stops low high c hb l1 l2 st
  · intro low high c l2 st hb; exact scan_low_breach low high c l2 st hb
  · intro low high l st h; exact scan_low_no_breach low high l st h
  · norm_num [scan_low, rstart, RState.mk.injEq]
  · intro low high c hb l1 l2 st; exact scan_high_stops low high c hb l1 l2 st
  · intro low high c l2 st hb; exact scan_high_breach low high c l2 st hb
  · intro low high l st h; exact scan_high_no_breach low high l st h

/-- Witness for C4: breach-termination applied to a concrete breaching candle,
showing the candle after the breach is never examined. -/
theorem retest_invalidation_witness :
    scan_low 1 2 ([] ++ (⟨0, 0, 0, 0, 0⟩ : Candle) :: [⟨0, 0, 0, 0, 1⟩]) rstart
      = scan_low 1 2 ([] ++ [(⟨0, 0, 0, 0, 0⟩ : Candle)]) rstart :=
  retest_invalidation.1 1 2 ⟨0, 0, 0, 0, 0⟩ (by norm_num) [] [⟨0, 0, 0, 0, 1⟩] rstart

/-- C5: on well-formed OHLC data every emitted zone has zone_low ≤ zone_high
(zone_height ≥ 0), a base count between 1 and max_bases inclusive, and a
continuation index strictly greater than the index of every one of its base
candles: the witnessing i is the first-impulse index, the bases sit at indices
i+1 .. i+num_base_candles, each of which is a base candle strictly below
continuation_idx. -/
theorem zone_invariants :
    ∀ (df : List Candle) (d : String) (mb : ℕ) (bt wt : ℚ),
      wellformed df → ∀ z ∈ find_pattern df d mb bt wt,
        z.zone_low ≤ z.zone_high ∧
        1 ≤ z.num_base_candles ∧ z.num_base_candles ≤ mb ∧
        ∃ i, try_zone df d mb bt wt i = some z ∧
          z.continuation_idx = i + 1 + z.num_base_candles ∧
          ∀ k, i + 1 ≤ k → k ≤ i + z.num_base_candles →
            is_base bt wt (nth df k) ∧ k < z.continuation_idx := by
  intro df d mb bt wt hwf z hz
  rw [find_pattern] at hz
  obtain ⟨i, -, htz⟩ := find_pattern_aux_mem df.length 0 z hz
  have htz' := htz
  have hprops : z.zone_low ≤ z.zone_high ∧ 1 ≤ z.num_base_candles ∧
      z.num_base_candles ≤ mb ∧ z.continuation_idx = i + 1 + z.num_base_candles ∧
      ∀ k, i + 1 ≤ k → k ≤ i + z.num_base_candles →
        is_base bt wt (nth df k) ∧ k < z.continuation_idx := by
    unfold try_zone at htz
    split at htz
    · exact try_rbr_zone_props hwf htz
    · split at htz
      · exact try_dbd_zone_props hwf htz
      · split at htz
        · exact try_rbd_zone_props hwf htz
        · split at htz
          · exact try_dbr_zone_props hwf htz
          · exact Option.noConfusion htz
  exact ⟨hprops.1, hprops.2.1, hprops.2.2.1,
    i, htz', hprops.2.2.2.1, hprops.2.2.2.2⟩

/-- Witness for C5: the invariants instantiated on the RBR scenario's zone. -/
theorem zone_invariants_witness :
    (107 : ℚ) ≤ 109 ∧ 1 ≤ 1 ∧ 1 ≤ 4 ∧
    ∃ i, try_zone scenario_df "bullish" 4 (65/100) (35/100) i =
        some { pattern_type := "RBR", date_base := 2, zone_low := 107, zone_high := 109,
               zone_height := 2, num_base_candles := 1, continuation_idx := 3 } ∧
      3 = i + 1 + 1 ∧
      ∀ k, i + 1 ≤ k → k ≤ i + 1 →
        is_base (65/100) (35/100) (nth scenario_df k) ∧ k < 3 :=
  zone_invariants scenario_df "bullish" 4 (65/100) (35/100)
    (by norm_num [wellformed, scenario_df, List.forall_mem_cons])
    { pattern_type := "RBR", date_base := 2, zone_low := 107, zone_high := 109,
      zone_height := 2, num_base_candles := 1, continuation_idx := 3 }
    (by rw [scenario_eval]; exact List.mem_singleton.mpr rfl)

/-- C6: any two consecutive zones z1, z2 in the detector's output satisfy
z1.continuation_idx < i2 where i2 is the index of z2's first impulse candle
(the index at which the loop attempt produced z2): after emitting a zone the
sweep resumes at continuation_idx + 1, so consumed candles never take part in
a later zone. -/
theorem zones_non_overlap :
    ∀ (df : List Candle) (d : String) (mb : ℕ) (bt wt : ℚ),
      List.Chain'
        (fun z1 z2 => ∃ i2, z1.continuation_idx < i2 ∧ try_zone df d mb bt wt i2 = some z2)
        (find_pattern df d mb bt wt) := by
  intro df d mb bt wt
  rw [find_pattern]
  exact find_pattern_aux_chain df.length 0

/-- Witness for C6: the chain property instantiated on the RBR scenario. -/
theorem zones_non_overlap_witness :
    List.Chain'
      (fun z1 z2 => ∃ i2, z1.continuation_idx < i2 ∧
        try_zone scenario_df "bullish" 4 (65/100) (35/100) i2 = some z2)
      (find_pattern scenario_df "bullish" 4 (65/100) (35/100)) :=
  zones_non_overlap scenario_df "bullish" 4 (65/100) (35/100)

/-- Counterexample for C7: with max_bases = 7 — outside the documented range
[1, 4] — detection does not reject the parameters before scanning: it scans
and emits a zone. -/
theorem threshold_validation_cex :
    find_pattern five_base_df "bullish" 7 (65/100) (35/100) ≠ [] := by
  rw [five_base_mb7_eval]
  simp

/-- C7 (amended): find_pattern performs no parameter validation whatsoever;
out-of-range values are used as-is by the sweep.  With max_bases = 7 on
five_base_df it collects five base candles (num_base_candles = 5, impossible
under the documented bound of 4) and emits a zone, while the in-range default
max_bases = 4 on the same series emits nothing. -/
theorem threshold_no_validation :
    find_pattern five_base_df "bullish" 7 (65/100) (35/100) =
      [{ pattern_type := "RBR", date_base := 1, zone_low := 107, zone_high := 109,
         zone_height := 2, num_base_candles := 5, continuation_idx := 6 }] ∧
    find_pattern five_base_df "bullish" 4 (65/100) (35/100) = [] :=
  ⟨five_base_mb7_eval, five_base_mb4_eval⟩

/-- Counterexample for C8: a fetch failure is not propagated — the
orchestrator returns the plain value (none, []), the very same result as a
successful fetch of an empty series. -/
theorem fetch_error_cex :
    analyze_security_patterns (.error "network error") "bullish" (65/100) (35/100) 4
      = (none, []) ∧
    analyze_security_patterns (.error "network error") "bullish" (65/100) (35/100) 4
      = analyze_security_patterns (.ok []) "bullish" (65/100) (35/100) 4 :=
  ⟨rfl, rfl⟩

/-- C8 (amended): the orchestrator's blanket try/except catches the fetch
failure, prints and returns (None, empty) instead of propagating it; the
detector-empty short-circuit — returning the fetched series together with an
empty retest set — does hold. -/
theorem fetch_error_swallowed :
    (∀ (e d : String) (bt wt : ℚ) (mb : ℕ),
      analyze_security_patterns (.error e) d bt wt mb = (none, [])) ∧
    (∀ (df : List Candle) (d : String) (bt wt : ℚ) (mb : ℕ),
      df ≠ [] → find_pattern df d mb bt wt = [] →
      analyze_security_patterns (.ok df) d bt wt mb = (some df, [])) := by
  constructor
  · intro e d bt wt mb; rfl
  · intro df d bt wt mb hne hz
    simp [analyze_security_patterns, hne, hz]

/-- Witness for C8: the amended behavior at a one-candle series on which the
detector finds nothing. -/
theorem fetch_error_swallowed_witness :
    analyze_security_patterns (.ok [dummy_candle]) "bullish" (65/100) (35/100) 4
      = (some [dummy_candle], []) :=
  fetch_error_swallowed.2 [dummy_candle] "bullish" (65/100) (35/100) 4
    (by simp)
    (by rw [find_pattern]
        exact find_pattern_aux_stop _ _ _ _ _ _ 0 (by norm_num))

/-- C9: the classifier and detector are total and deterministic on every
candle: candle_size is epsilon-guarded strictly positive (so the body and
wick ratio divisions are well-defined), every successful loop attempt moves
the continuation index at least two past the current index and keeps it in
range (so the sweep advances by at least one per iteration), and the sweep's
result is independent of any sufficient iteration budget — detection
terminates with one defined value on every finite sequence. -/
theorem detector_total_terminating :
    (∀ c : Candle, 0 < candle_size c) ∧
    (∀ (df : List Candle) (d : String) (mb : ℕ) (bt wt : ℚ) (i : ℕ) (z : Zone),
      try_zone df d mb bt wt i = some z →
        i + 2 ≤ z.continuation_idx ∧ z.continuation_idx < df.length) ∧
    (∀ (df : List Candle) (d : String) (mb : ℕ) (bt wt : ℚ) (f1 f2 i : ℕ),
      df.length ≤ i + f1 → df.length ≤ i + f2 →
        find_pattern_aux df d mb bt wt f1 i = find_pattern_aux df d mb bt wt f2 i) := by
  refine ⟨?_, ?_, ?_⟩
  · intro c
    rw [candle_size]
    exact lt_of_lt_of_le (by norm_num) (le_max_right _ _)
  · intro df d mb bt wt i z h
    exact try_zone_bounds h
  · intro df d mb bt wt f1 f2 i h1 h2
    exact find_pattern_aux_fuel_stable df d mb bt wt f1 f2 i h1 h2

/-- Witness for C9: positivity on a flat candle, the advance bound on the
scenario's emitted zone, and budget-independence on a concrete series. -/
theorem detector_total_terminating_witness :
    0 < candle_size dummy_candle ∧
    (1 + 2 ≤ 3 ∧ 3 < scenario_df.length) ∧
    find_pattern_aux [] "bullish" 1 1 1 3 0 = find_pattern_aux [] "bullish" 1 1 1 5 0 :=
  ⟨detector_total_terminating.1 dummy_candle,
   detector_total_terminating.2.1 scenario_df "bullish" 4 (65/100) (35/100) 1
     { pattern_type := "RBR", date_base := 2, zone_low := 107, zone_high := 109,
       zone_height := 2, num_base_candles := 1, continuation_idx := 3 }
     scenario_try_zone_1,
   detector_total_terminating.2.2 [] "bullish" 1 1 1 3 5 0 (by simp) (by simp)⟩

/-- C10: a direction string outside bullish / bearish / rbd / dbr makes every
loop attempt fall through, so detection silently returns the empty zone list,
and the orchestrator returns the fetched series (when nonempty) with an empty
retest set — indistinguishable from a genuine absence of patterns, with no
error raised. -/
theorem unknown_variant_empty :
    ∀ (df : List Candle) (d : String) (mb : ℕ) (bt wt : ℚ),
      d ≠ "bullish" → d ≠ "bearish" → d ≠ "rbd" → d ≠ "dbr" →
      find_pattern df d mb bt wt = [] ∧
      analyze_security_patterns (.ok df) d bt wt mb
        = ((if df = [] then none else some df), []) := by
  intro df d mb bt wt h1 h2 h3 h4
  have hfp : find_pattern df d mb bt wt = [] := by
    rw [find_pattern]
    exact find_pattern_aux_unknown h1 h2 h3 h4 df.length 0
  refine ⟨hfp, ?_⟩
  by_cases hdf : df = []
  · subst hdf; simp [analyze_security_patterns]
  · simp [analyze_security_patterns, hdf, hfp]

/-- Witness for C10: the unrecognized direction "foo" on the RBR scenario. -/
theorem unknown_variant_empty_witness :
    find_pattern scenario_df "foo" 4 1 1 = [] ∧
    analyze_security_patterns (.ok scenario_df) "foo" 1 1 4
      = ((if scenario_df = [] then none else some scenario_df), []) :=
  unknown_variant_empty scenario_df "foo" 4 1 1
    (by decide) (by decide) (by decide) (by decide)
